import Mathlib

/-!
# Verification of the `data-proc` streaming pipeline

A shallow embedding of the repository's source (`src/lib.rs`,
`src/console/mod.rs`, `src/http/mod.rs`) together with theorems settling
the specification's claims about it.

Modelling conventions:
* An asynchronous `Stream<Item = T>` consumed to exhaustion is modelled as a
  finite `List T` (the pipeline drains the stream to completion).
* The network is an environment: for each item, a function from attempt
  number to the response outcome of that attempt.
* `io::Result` / `Result<(), Error>` is `Except String _`; a Rust panic
  (`unwrap` on `Err`) is `Option.none` in the function's result.
* Machine-level byte I/O is modelled at the level the code manipulates it:
  UTF-8 text as `String` / `List Char`.
-/

namespace DataProc

/-! ## HTTP sink (`src/http/mod.rs`) -/

/-- HTTP methods (the fragment of `http::method::Method` the claims need). -/
inductive Method where
  | GET
  | POST
  | PUT
  | DELETE
  deriving DecidableEq, Repr

/-- Embeds `reqwest::Client` as the configuration the sink's constructor
gives it: the optional default-header map installed by
`ClientBuilder::default_headers` (lines 25–31 of `src/http/mod.rs`). -/
structure Client where
  defaultHeaders : Option (List (String × String))
  deriving DecidableEq, Repr

/-- Embeds `struct HttpOutput` (lines 13–17 of `src/http/mod.rs`):
a target endpoint, an HTTP method, and the configured client. -/
structure HttpOutput where
  endpoint : String
  method : Method
  client : Client
  deriving DecidableEq, Repr

/-- Embeds `HttpOutput::new` (lines 19–37 of `src/http/mod.rs`): builds the
client from the optional default headers and stores endpoint, method and
client in the sink. -/
def HttpOutput.new (endpoint : String) (method : Method)
    (default_headers : Option (List (String × String))) : HttpOutput :=
  { endpoint := endpoint
    method := method
    client := { defaultHeaders := default_headers } }

/-- The outcome of one `send().await` on the wire: either a response with a
numeric status and a body, or a transport-level error. -/
inductive HttpResult where
  | ok (status : Nat) (body : String)
  | err (msg : String)
  deriving DecidableEq, Repr

/-- `http::StatusCode::is_success`: the 2xx range. -/
def is_success (status : Nat) : Bool :=
  200 ≤ status && status < 300

/-- Log levels used by the sink (`tracing::warn!` / `tracing::error!`). -/
inductive Level where
  | warn
  | error
  deriving DecidableEq, Repr

/-- A log record: level and message. -/
abbrev LogEvent := Level × String

/-- The spec's per-item delivery outcome (§3, §4.3): the four terminal
classifications of one item's send attempt. -/
inductive Outcome where
  | Delivered
  | Throttled
  | Rejected
  | TransportError
  deriving DecidableEq, Repr

/-- Loop control produced by a branch of the response handling:
Rust's `break` / `continue` inside the `loop` of `HttpOutput::output`. -/
inductive LoopCtl where
  | brk
  | cont
  deriving DecidableEq, Repr

/-- What one branch of the response handling does: the spec-level
classification of the branch, the log records it emits, and the loop
control it ends with. -/
structure StepResult where
  outcome : Outcome
  logs : List LogEvent
  ctl : LoopCtl
  deriving DecidableEq, Repr

/-- Embeds the `match ... { Ok(response) => ..., Err(e) => ... }` body of the
retry loop in `HttpOutput::output` (lines 54–74 of `src/http/mod.rs`):
* response with a success status: `break` (no log) — `Delivered`;
* response with status 429: `tracing::warn!("[429] backoff")`, `break` —
  `Throttled`;
* response with any other status: `tracing::error!` with the status and the
  response body text, `break` — `Rejected`;
* transport error: `tracing::error!` with the error, `break` —
  `TransportError`. -/
def classifyResponse : HttpResult → StepResult
  | HttpResult.ok status body =>
    if is_success status then
      ⟨Outcome.Delivered, [], LoopCtl.brk⟩
    else
      match status with
      | 429 => ⟨Outcome.Throttled, [(Level.warn, "[429] backoff")], LoopCtl.brk⟩
      | _ => ⟨Outcome.Rejected,
          [(Level.error,
            "unexpected status: [" ++ toString status ++ "], response: " ++ body)],
          LoopCtl.brk⟩
  | HttpResult.err e =>
    ⟨Outcome.TransportError, [(Level.error, "error: " ++ e)], LoopCtl.brk⟩

/-- An outgoing HTTP request as the sink issues it. -/
structure Request where
  method : Method
  url : String
  headers : Option (List (String × String))
  body : String
  deriving DecidableEq, Repr

/-- The request built by `self.client.post(self.endpoint.clone()).body(item.into())`
(lines 52–53 of `src/http/mod.rs`). Note the source calls `Client::post`,
so the wire method is `POST`; the sink's stored `method` field is not
consulted here. -/
def HttpOutput.buildRequest (cfg : HttpOutput) (body : String) : Request :=
  { method := Method.POST
    url := cfg.endpoint
    headers := cfg.client.defaultHeaders
    body := body }

/-- The observable trace of a run of the sink: the requests issued on the
wire, the log records emitted, and the per-item classification events, each
in order. -/
structure Trace where
  requests : List Request
  logs : List LogEvent
  outcomes : List Outcome
  deriving DecidableEq, Repr

/-- Concatenation of traces (sequencing two phases of a run). -/
def Trace.append (a b : Trace) : Trace :=
  ⟨a.requests ++ b.requests, a.logs ++ b.logs, a.outcomes ++ b.outcomes⟩

/-- Embeds the inner `loop { match self.client.post(...).body(...).send().await { ... } }`
of `HttpOutput::output` (lines 51–75 of `src/http/mod.rs`) for one item.
`net` gives the wire outcome of each attempt, `attempt` is the index of the
next attempt, and `fuel` bounds the number of iterations so the function is
total; every branch of the source ends in `break`, so one unit of fuel
suffices (proved below). -/
def sendLoop (cfg : HttpOutput) (body : String) (net : Nat → HttpResult) :
    Nat → Nat → Trace
  | 0, _ => ⟨[], [], []⟩
  | fuel + 1, attempt =>
    let req := cfg.buildRequest body
    let step := classifyResponse (net attempt)
    match step.ctl with
    | LoopCtl.brk => ⟨[req], step.logs, [step.outcome]⟩
    | LoopCtl.cont =>
      Trace.append ⟨[req], step.logs, [step.outcome]⟩
        (sendLoop cfg body net fuel (attempt + 1))

/-- One pipeline item as the HTTP sink sees it: its request body together
with the network's behaviour (wire outcome per attempt) for that item. -/
abbrev NetItem := String × (Nat → HttpResult)

/-- The outer `while let Some(item) = stream.next().await` of
`HttpOutput::output` (lines 50–76 of `src/http/mod.rs`): process the items
one at a time, in arrival order, running the send loop for each. -/
def outputItems (cfg : HttpOutput) (fuel : Nat) : List NetItem → Trace
  | [] => ⟨[], [], []⟩
  | (body, net) :: rest =>
    Trace.append (sendLoop cfg body net fuel 0) (outputItems cfg fuel rest)

/-- Embeds `HttpOutput::output` (lines 41–79 of `src/http/mod.rs`): drain the
stream, send each item once per the loop semantics, and return `Ok(())`
(line 77) unconditionally. -/
def HttpOutput.output (cfg : HttpOutput) (fuel : Nat) (items : List NetItem) :
    Trace × Except String Unit :=
  (outputItems cfg fuel items, Except.ok ())

/-! ## Console adapters (`src/console/mod.rs`) -/

/-- Embeds `Stdin::into_stream` (lines 10–15 of `src/console/mod.rs`).
The underlying `LinesStream` yields one `io::Result<String>` per physical
line until end-of-input, modelled as a finite list of `Except`; the source
applies `filter_map(|line| line.ok())`, so failed reads are dropped and
successful lines pass through, in order, the stream ending exactly when the
underlying list of reads is exhausted. -/
def Stdin.into_stream (reads : List (Except String String)) : List String :=
  reads.filterMap (fun line => line.toOption)

/-- Embeds the body of the `while let` loop of `Stdout::output`
(lines 31–34 of `src/console/mod.rs`), iterated over the items. `writeRes`
is the environment: what `stdout.write(..)` returns for the `i`-th write
call (`Ok` with a byte count, or an I/O error). For each item `o` the sink
formats `"{o}\n"` and performs exactly one write of that string; the
returned byte count is dropped by the source (`.unwrap()` keeps only
success), and an `Err` makes `.unwrap()` panic, modelled as `none`.
Returns the sequence of strings handed to `write`, in order. -/
def stdoutWrites (writeRes : Nat → Except String Nat) :
    Nat → List String → Option (List String)
  | _, [] => some []
  | i, o :: rest =>
    let s := o ++ "\n"
    match writeRes i with
    | Except.error _ => none
    | Except.ok _count =>
      (stdoutWrites writeRes (i + 1) rest).map (fun ws => s :: ws)

/-- Embeds `Stdout::output` (lines 20–38 of `src/console/mod.rs`): drain the
stream, writing each item plus a newline, then return `Ok(())` (line 35).
`none` models the panic from `.unwrap()` on a failed write; otherwise the
result carries the writes performed and the sink's return value. -/
def Stdout.output (writeRes : Nat → Except String Nat) (items : List String) :
    Option (List String × Except String Unit) :=
  (stdoutWrites writeRes 0 items).map (fun ws => (ws, Except.ok ()))

/-- Split a character stream at newline characters: the segments between
`'\n'`s, used to read the sink's byte output back as lines. -/
def splitNl : List Char → List (List Char)
  | [] => [[]]
  | c :: cs =>
    if c = '\n' then
      [] :: splitNl cs
    else
      match splitNl cs with
      | [] => [[c]]
      | seg :: rest => (c :: seg) :: rest

/-- The concatenated byte (character) stream that a sequence of writes puts
on the output collaborator. -/
def writesText (ws : List String) : String :=
  ws.foldr (fun a b => a ++ b) ""

/-- The lines of an output text: the newline-separated segments, with the
empty segment after a trailing newline not counted as a line. -/
def textLines (s : String) : List String :=
  let segs := splitNl s.data
  (if segs.getLast? = some [] then segs.dropLast else segs).map
    (fun cs => String.mk cs)

/-! ## Helper lemmas -/

/-- Every branch of the response handling ends in `break`: the loop control
of any classified response is `brk`. -/
theorem classifyResponse_ctl (r : HttpResult) :
    (classifyResponse r).ctl = LoopCtl.brk := by
  cases r with
  | ok s b =>
    unfold classifyResponse
    by_cases h : is_success s
    · simp [h]
    · simp only [h, Bool.false_eq_true, if_false]
      split <;> rfl
  | err e => rfl

/-- With at least one unit of fuel, the send loop runs exactly one
iteration: one request on the wire, the logs and classification of the
first attempt's response. -/
theorem sendLoop_succ (cfg : HttpOutput) (body : String) (net : Nat → HttpResult)
    (fuel attempt : Nat) :
    sendLoop cfg body net (fuel + 1) attempt =
      ⟨[cfg.buildRequest body], (classifyResponse (net attempt)).logs,
        [(classifyResponse (net attempt)).outcome]⟩ := by
  have h := classifyResponse_ctl (net attempt)
  cases hs : classifyResponse (net attempt) with
  | mk out logs ctl =>
    rw [hs] at h
    simp only at h
    subst h
    simp [sendLoop, hs]

/-- With at least one unit of fuel, the whole run of the sink is the
item-wise trace: one request per item in arrival order, the concatenated
logs, and one classification event per item. -/
theorem outputItems_succ (cfg : HttpOutput) (fuel : Nat) (items : List NetItem) :
    outputItems cfg (fuel + 1) items =
      ⟨items.map (fun it => cfg.buildRequest it.1),
       (items.map (fun it => (classifyResponse (it.2 0)).logs)).flatten,
       items.map (fun it => (classifyResponse (it.2 0)).outcome)⟩ := by
  induction items with
  | nil => rfl
  | cons it rest ih =>
    simp [outputItems, sendLoop_succ, Trace.append, ih]

/-- A stream of successful reads passes through the source unchanged. -/
theorem into_stream_ok (lines : List String) :
    Stdin.into_stream (lines.map Except.ok) = lines := by
  induction lines with
  | nil => rfl
  | cons l rest ih =>
    simp [Stdin.into_stream, List.filterMap_cons, Except.toOption] at ih ⊢
    exact ih

/-- When every write succeeds (with any byte counts), the console sink hands
`write` exactly the items, each with a newline appended, in order. -/
theorem stdoutWrites_ok (counts : Nat → Nat) (items : List String) (i : Nat) :
    stdoutWrites (fun j => Except.ok (counts j)) i items =
      some (items.map (fun o => o ++ "\n")) := by
  induction items generalizing i with
  | nil => rfl
  | cons o rest ih =>
    simp [stdoutWrites, ih]

/-- Splitting at newlines after appending a newline-free segment and a
newline recovers the segment. -/
theorem splitNl_append_nl (l rest : List Char) (h : ('\n') ∉ l) :
    splitNl (l ++ '\n' :: rest) = l :: splitNl rest := by
  induction l with
  | nil => simp [splitNl]
  | cons c cs ih =>
    have hc : ¬ c = '\n' := fun hc => h (by simp [hc])
    have hcs : ('\n') ∉ cs := fun hm => h (List.mem_cons_of_mem _ hm)
    simp [splitNl, hc, ih hcs]

/-- Splitting at newlines the concatenation of newline-terminated,
newline-free segments recovers the segments (plus the empty tail after the
final newline). -/
theorem splitNl_flatten (lines : List String)
    (h : ∀ l ∈ lines, ('\n') ∉ l.data) :
    splitNl ((lines.map (fun l => l.data ++ ['\n'])).flatten) =
      lines.map String.data ++ [[]] := by
  induction lines with
  | nil => rfl
  | cons l rest ih =>
    have h1 : ('\n') ∉ l.data := h l (List.mem_cons_self l rest)
    have h2 : ∀ x ∈ rest, ('\n') ∉ x.data :=
      fun x hx => h x (List.mem_cons_of_mem _ hx)
    simp only [List.map_cons, List.flatten_cons, List.append_assoc,
      List.cons_append, List.nil_append]
    rw [splitNl_append_nl _ _ h1, ih h2]

/-- The character stream of a sequence of writes is the concatenation of the
writes' characters. -/
theorem writesText_data (ws : List String) :
    (writesText ws).data = (ws.map String.data).flatten := by
  induction ws with
  | nil => rfl
  | cons w rest ih =>
    simp [writesText, String.data_append] at ih ⊢
    exact ih

/-- Appending a newline to each line, at the level of characters. -/
theorem map_append_nl_data (lines : List String) :
    (lines.map (fun l => l ++ "\n")).map String.data =
      lines.map (fun l => l.data ++ ['\n']) := by
  simp [List.map_map, Function.comp, String.data_append]

/-- Reading back the lines of the text written for newline-free lines gives
exactly the lines. -/
theorem textLines_writesText (lines : List String)
    (h : ∀ l ∈ lines, ('\n') ∉ l.data) :
    textLines (writesText (lines.map (fun l => l ++ "\n"))) = lines := by
  unfold textLines
  rw [writesText_data, map_append_nl_data, splitNl_flatten lines h]
  have hid : ((fun cs => String.mk cs) ∘ String.data) = fun s : String => s := rfl
  simp [List.getLast?_concat, List.dropLast_concat, List.map_map, hid]

/-! ## The claims -/

/-- C1: For every input stream, the network sink (`HttpOutput::output`)
issues HTTP requests whose sequence of bodies equals the sequence of items
in arrival order: no reordering and no duplication of any item. -/
theorem http_output_bodies_eq_items (cfg : HttpOutput) (fuel : Nat)
    (items : List NetItem) (h : 1 ≤ fuel) :
    (HttpOutput.output cfg fuel items).1.requests.map (fun r => r.body) =
      items.map (fun it => it.1) := by
  obtain ⟨f, rfl⟩ : ∃ f, fuel = f + 1 := ⟨fuel - 1, by omega⟩
  simp [HttpOutput.output, outputItems_succ, List.map_map, Function.comp,
    HttpOutput.buildRequest]

/-- Witness for C1: two items whose responses are a success and a transport
error; the bodies on the wire are exactly `["a", "b"]`. -/
theorem http_output_bodies_eq_items_w :
    (1 : Nat) ≤ 1 ∧
    (HttpOutput.output (HttpOutput.new "http://e" Method.POST none) 1
        [("a", fun _ => HttpResult.ok 200 ""),
         ("b", fun _ => HttpResult.err "refused")]).1.requests.map
        (fun r => r.body) = ["a", "b"] :=
  ⟨Nat.le_refl 1,
    http_output_bodies_eq_items (HttpOutput.new "http://e" Method.POST none) 1
      [("a", fun _ => HttpResult.ok 200 ""),
       ("b", fun _ => HttpResult.err "refused")] (Nat.le_refl 1)⟩

/-- C2: for every item and every possible response outcome, every branch of
the response/error handling exits the per-item send loop (`break`), so the
loop issues exactly one request for the item: no retry ever occurs. -/
theorem http_no_retry (r : HttpResult) (cfg : HttpOutput) (body : String)
    (net : Nat → HttpResult) (fuel attempt : Nat) (h : 1 ≤ fuel) :
    (classifyResponse r).ctl = LoopCtl.brk ∧
    (sendLoop cfg body net fuel attempt).requests = [cfg.buildRequest body] := by
  obtain ⟨f, rfl⟩ : ∃ f, fuel = f + 1 := ⟨fuel - 1, by omega⟩
  exact ⟨classifyResponse_ctl r, by rw [sendLoop_succ]⟩

/-- Witness for C2: a 503 response breaks the loop, and the loop issues a
single request for the item. -/
theorem http_no_retry_w :
    (1 : Nat) ≤ 1 ∧
    (classifyResponse (HttpResult.ok 503 "overloaded")).ctl = LoopCtl.brk ∧
    (sendLoop (HttpOutput.new "http://e" Method.POST none) "a"
        (fun _ => HttpResult.ok 503 "overloaded") 1 0).requests =
      [(HttpOutput.new "http://e" Method.POST none).buildRequest "a"] :=
  ⟨Nat.le_refl 1,
    http_no_retry (HttpResult.ok 503 "overloaded")
      (HttpOutput.new "http://e" Method.POST none) "a"
      (fun _ => HttpResult.ok 503 "overloaded") 1 0 (Nat.le_refl 1)⟩

/-- C3: for every input stream and every sequence of per-item response
outcomes (transport failures included), `HttpOutput::output` returns
`Ok(())`: no per-item failure surfaces as a pipeline-aborting error. -/
theorem http_output_always_ok (cfg : HttpOutput) (fuel : Nat)
    (items : List NetItem) :
    (HttpOutput.output cfg fuel items).2 = Except.ok () := rfl

/-- C4: for every item the sink produces exactly one classification event —
the classification of that item's response, drawn from the four-valued
`Outcome` type — and then proceeds to the next item: the run classifies all
the items, issuing one request per item, and no item leaves the stream
stalled. -/
theorem http_classification_complete (cfg : HttpOutput) (fuel : Nat)
    (items : List NetItem) (h : 1 ≤ fuel) :
    (HttpOutput.output cfg fuel items).1.outcomes =
      items.map (fun it => (classifyResponse (it.2 0)).outcome) ∧
    (HttpOutput.output cfg fuel items).1.outcomes.length = items.length ∧
    (HttpOutput.output cfg fuel items).1.requests.length = items.length := by
  obtain ⟨f, rfl⟩ : ∃ f, fuel = f + 1 := ⟨fuel - 1, by omega⟩
  simp [HttpOutput.output, outputItems_succ]

/-- Witness for C4: a run over the four response categories produces the
four classification events, one per item, in order. -/
theorem http_classification_complete_w :
    (1 : Nat) ≤ 1 ∧
    (HttpOutput.output (HttpOutput.new "http://e" Method.POST none) 1
        [("a", fun _ => HttpResult.ok 200 ""),
         ("b", fun _ => HttpResult.ok 429 "slow down"),
         ("c", fun _ => HttpResult.ok 500 "boom"),
         ("d", fun _ => HttpResult.err "refused")]).1.outcomes =
      [Outcome.Delivered, Outcome.Throttled, Outcome.Rejected,
        Outcome.TransportError] :=
  ⟨Nat.le_refl 1, by
    have h := http_classification_complete
      (HttpOutput.new "http://e" Method.POST none) 1
      [("a", fun _ => HttpResult.ok 200 ""),
       ("b", fun _ => HttpResult.ok 429 "slow down"),
       ("c", fun _ => HttpResult.ok 500 "boom"),
       ("d", fun _ => HttpResult.err "refused")] (Nat.le_refl 1)
    rw [h.1]
    decide⟩

/-- Counterexample to C5 as stated: a sink configured with method `GET`
still puts method `POST` on the wire — the request method differs from the
sink's configured method, because the source calls `Client::post`
unconditionally. -/
theorem http_configured_method_cex :
    (HttpOutput.output (HttpOutput.new "http://e" Method.GET none) 1
        [("a", fun _ => HttpResult.ok 200 "")]).1.requests.map
        (fun r => r.method) ≠
      [(HttpOutput.new "http://e" Method.GET none).method] := by
  decide

/-- C5 (amended): every outgoing request is issued with HTTP method `POST`
regardless of the method stored in the sink (the `method` field set by
`HttpOutput::new` is never consulted by `output`), together with the
configured URL, the client's default headers, and the item's body. -/
theorem http_requests_always_post (cfg : HttpOutput) (fuel : Nat)
    (items : List NetItem) (h : 1 ≤ fuel) :
    (HttpOutput.output cfg fuel items).1.requests =
      items.map (fun it =>
        { method := Method.POST, url := cfg.endpoint,
          headers := cfg.client.defaultHeaders, body := it.1 }) := by
  obtain ⟨f, rfl⟩ : ∃ f, fuel = f + 1 := ⟨fuel - 1, by omega⟩
  simp [HttpOutput.output, outputItems_succ, HttpOutput.buildRequest]

/-- Witness for C5 (amended): the `GET`-configured sink issues a `POST`
request with its URL and the item's body. -/
theorem http_requests_always_post_w :
    (1 : Nat) ≤ 1 ∧
    (HttpOutput.output (HttpOutput.new "http://e" Method.GET none) 1
        [("a", fun _ => HttpResult.ok 200 "")]).1.requests =
      [{ method := Method.POST, url := "http://e", headers := none,
         body := "a" }] :=
  ⟨Nat.le_refl 1,
    http_requests_always_post (HttpOutput.new "http://e" Method.GET none) 1
      [("a", fun _ => HttpResult.ok 200 "")] (Nat.le_refl 1)⟩

/-- C10: a response with a success status produces no log record (a
`Delivered` outcome is not observable through logs: the logs of a
classification are empty exactly when the outcome is `Delivered`); log
records are emitted only on the `Throttled` (warning level), `Rejected`
(error level) and `TransportError` (error level) branches. -/
theorem http_logs_only_on_failure (s : Nat) (b e : String) :
    (is_success s = true →
      classifyResponse (HttpResult.ok s b) =
        ⟨Outcome.Delivered, [], LoopCtl.brk⟩) ∧
    (is_success s = false → s = 429 →
      classifyResponse (HttpResult.ok s b) =
        ⟨Outcome.Throttled, [(Level.warn, "[429] backoff")], LoopCtl.brk⟩) ∧
    (is_success s = false → s ≠ 429 →
      classifyResponse (HttpResult.ok s b) =
        ⟨Outcome.Rejected,
          [(Level.error,
            "unexpected status: [" ++ toString s ++ "], response: " ++ b)],
          LoopCtl.brk⟩) ∧
    classifyResponse (HttpResult.err e) =
      ⟨Outcome.TransportError, [(Level.error, "error: " ++ e)], LoopCtl.brk⟩ ∧
    ((classifyResponse (HttpResult.ok s b)).logs = [] ↔ is_success s = true) := by
  refine ⟨fun hs => ?_, fun hs h429 => ?_, fun hs h429 => ?_, rfl, ?_⟩
  · simp [classifyResponse, hs]
  · subst h429
    simp [classifyResponse, hs]
  · unfold classifyResponse
    simp only [hs, Bool.false_eq_true, if_false]
  · constructor
    · intro hl
      by_contra hs
      rw [Bool.not_eq_true] at hs
      revert hl
      unfold classifyResponse
      simp only [hs, Bool.false_eq_true, if_false]
      split <;> simp
    · intro hs
      simp [classifyResponse, hs]

/-- Witness for C10: a 204 response logs nothing; a connection error logs at
error level. -/
theorem http_logs_only_on_failure_w :
    (classifyResponse (HttpResult.ok 204 "") =
      ⟨Outcome.Delivered, [], LoopCtl.brk⟩) ∧
    classifyResponse (HttpResult.err "refused") =
      ⟨Outcome.TransportError, [(Level.error, "error: " ++ "refused")],
        LoopCtl.brk⟩ :=
  ⟨(http_logs_only_on_failure 204 "" "refused").1 (by decide),
    (http_logs_only_on_failure 204 "" "refused").2.2.2.1⟩

/-- C6: feeding N text lines without embedded newlines through the console
source (`Stdin`) and console sink (`Stdout`) produces exactly N output
lines, each equal to its corresponding input line: the sink completes with
the newline-terminated lines as its writes, and reading the written text
back as lines gives the input lines. -/
theorem console_line_round_trip (lines : List String) (counts : Nat → Nat)
    (h : ∀ l ∈ lines, ('\n') ∉ l.data) :
    Stdout.output (fun i => Except.ok (counts i))
        (Stdin.into_stream (lines.map Except.ok)) =
      some (lines.map (fun l => l ++ "\n"), Except.ok ()) ∧
    textLines (writesText (lines.map (fun l => l ++ "\n"))) = lines ∧
    (textLines (writesText (lines.map (fun l => l ++ "\n")))).length =
      lines.length := by
  refine ⟨?_, textLines_writesText lines h, ?_⟩
  · rw [into_stream_ok]
    unfold Stdout.output
    rw [stdoutWrites_ok]
    rfl
  · rw [textLines_writesText lines h]

/-- Witness for C6: the input lines `["a", "b", "c"]` round-trip, the text
put on standard output being `"a\nb\nc\n"`. -/
theorem console_line_round_trip_w :
    (∀ l ∈ ["a", "b", "c"], ('\n') ∉ l.data) ∧
    writesText (["a", "b", "c"].map (fun l => l ++ "\n")) = "a\nb\nc\n" ∧
    Stdout.output (fun _ => Except.ok 2)
        (Stdin.into_stream (["a", "b", "c"].map Except.ok)) =
      some (["a\n", "b\n", "c\n"], Except.ok ()) ∧
    textLines "a\nb\nc\n" = ["a", "b", "c"] := by
  have h := console_line_round_trip ["a", "b", "c"] (fun _ => 2) (by decide)
  refine ⟨by decide, by decide, ?_, by decide⟩
  exact h.1

/-- C7: a line whose read fails is silently skipped by the console source:
the failed line is omitted from the produced stream, the lines after it are
still produced, and the stream runs to the end of the underlying input. -/
theorem stdin_skips_failed_reads (pre post : List (Except String String))
    (e : String) :
    Stdin.into_stream (pre ++ Except.error e :: post) =
      Stdin.into_stream (pre ++ post) ∧
    Stdin.into_stream (pre ++ Except.error e :: post) =
      Stdin.into_stream pre ++ Stdin.into_stream post := by
  unfold Stdin.into_stream
  simp [List.filterMap_append, List.filterMap_cons, Except.toOption]

/-- C8: `Stdout::output` never returns an error value: whenever it returns
at all (it panics on a failed write instead of reporting it), its result is
`Ok(())` — a write failure is never propagated as an `IoFailure` result. -/
theorem stdout_output_never_error (writeRes : Nat → Except String Nat)
    (items : List String) (res : List String × Except String Unit)
    (h : Stdout.output writeRes items = some res) :
    res.2 = Except.ok () := by
  unfold Stdout.output at h
  obtain ⟨ws, _hws, hres⟩ := Option.map_eq_some'.mp h
  rw [← hres]

/-- Witness for C8: a one-item run whose write succeeds returns
`Ok(())`. -/
theorem stdout_output_never_error_w :
    Stdout.output (fun _ => Except.ok 1) ["x"] =
      some (["x\n"], Except.ok ()) ∧
    (["x\n"], (Except.ok () : Except String Unit)).2 = Except.ok () :=
  ⟨rfl, stdout_output_never_error (fun _ => Except.ok 1) ["x"]
    (["x\n"], Except.ok ()) rfl⟩

/-- C9: for each item the console sink performs exactly one write call, of
the rendered item followed by a single newline, and discards the returned
byte count: for every function giving the count each write call returns —
partial counts included — the sink's behaviour is the same, one write per
item in order. -/
theorem stdout_one_write_per_item (counts : Nat → Nat) (items : List String) :
    Stdout.output (fun i => Except.ok (counts i)) items =
      some (items.map (fun o => o ++ "\n"), Except.ok ()) ∧
    (items.map (fun o => o ++ "\n")).length = items.length := by
  constructor
  · unfold Stdout.output
    rw [stdoutWrites_ok]
    rfl
  · exact List.length_map items _

end DataProc
